import Mathlib

/-!
Shallow embedding of the Schedify task manager core
(`src/lib/db.ts`, `src/app/page.tsx`, `src/components/TaskCard.tsx`,
`src/types.ts`), together with theorems settling the frozen claims about it.

JavaScript numbers that can be `NaN` are modelled as `Option Int`
(`none` = `NaN`): every comparison involving `NaN` is `false` and
arithmetic propagates `NaN`, exactly as in JS.

`new Date(s).getTime()` on the date-only strings this code passes around is
modelled by `parseDate : String → Option Int`: a strict `YYYY-MM-DD` parser
(ECMAScript rejects out-of-range components of the ISO date form, yielding
`NaN`), returning a value that is strictly monotone in the calendar date.
The source only ever compares such timestamps for order and equality, so any
strictly monotone encoding is faithful; we use `y*10000 + m*100 + d`.
Similarly `new Date("1970-01-01T" ++ t).getTime()` for `HH:mm` strings is
modelled by `parseTimeHM`, returning minutes since midnight.
-/

namespace Schedify

/-- JS `a < b` where either side may be `NaN` (`none`): `NaN` compares false. -/
def jsLt (a b : Option Int) : Bool :=
  match a, b with
  | some x, some y => x < y
  | _, _ => false

/-- JS `a <= b` with `NaN` comparing false. -/
def jsLe (a b : Option Int) : Bool :=
  match a, b with
  | some x, some y => x ≤ y
  | _, _ => false

/-- JS `a > b` with `NaN` comparing false. -/
def jsGt (a b : Option Int) : Bool :=
  match a, b with
  | some x, some y => y < x
  | _, _ => false

/-- JS `a >= b` with `NaN` comparing false. -/
def jsGe (a b : Option Int) : Bool :=
  match a, b with
  | some x, some y => y ≤ x
  | _, _ => false

/-- JS addition, propagating `NaN`. -/
def jsAdd (a b : Option Int) : Option Int :=
  match a, b with
  | some x, some y => some (x + y)
  | _, _ => none

/-- JS subtraction, propagating `NaN`. -/
def jsSub (a b : Option Int) : Option Int :=
  match a, b with
  | some x, some y => some (x - y)
  | _, _ => none

/-- Numeric value of a decimal digit character. -/
def digitVal (c : Char) : Nat := c.toNat - 48

def isLeapYear (y : Nat) : Bool :=
  (y % 4 == 0 && y % 100 != 0) || (y % 400 == 0)

def daysInMonth (y m : Nat) : Nat :=
  if m == 2 then (if isLeapYear y then 29 else 28)
  else if m == 4 || m == 6 || m == 9 || m == 11 then 30
  else 31

/-- Model of `new Date(s).getTime()` for the date strings this app passes
around: strict `YYYY-MM-DD` with in-range month and day parses to a
timestamp (encoded monotonically as `y*10000+m*100+d`); anything else is
`NaN` (`none`). -/
def parseDate (s : String) : Option Int :=
  match s.toList with
  | [y1, y2, y3, y4, '-', m1, m2, '-', d1, d2] =>
    if y1.isDigit && y2.isDigit && y3.isDigit && y4.isDigit &&
       m1.isDigit && m2.isDigit && d1.isDigit && d2.isDigit then
      let y := 1000 * digitVal y1 + 100 * digitVal y2 + 10 * digitVal y3 + digitVal y4
      let m := 10 * digitVal m1 + digitVal m2
      let d := 10 * digitVal d1 + digitVal d2
      if 1 ≤ m && m ≤ 12 && 1 ≤ d && d ≤ daysInMonth y m then
        some (Int.ofNat (y * 10000 + m * 100 + d))
      else none
    else none
  | _ => none

/-- Model of `new Date("1970-01-01T" ++ t).getTime()` for `HH:mm` strings:
well-formed times parse to minutes since midnight, anything else is `NaN`. -/
def parseTimeHM (s : String) : Option Int :=
  match s.toList with
  | [h1, h2, ':', mi1, mi2] =>
    if h1.isDigit && h2.isDigit && mi1.isDigit && mi2.isDigit then
      let h := 10 * digitVal h1 + digitVal h2
      let mi := 10 * digitVal mi1 + digitVal mi2
      if h ≤ 23 && mi ≤ 59 then some (Int.ofNat (h * 60 + mi)) else none
    else none
  | _ => none

/-- Structure `TaskLog` from `src/types.ts` (called a work log in the spec).
`duration` is a JS number (may be `NaN`), hence `Option Int`. -/
structure TaskLog where
  id : String
  date : String
  startTime : String
  endTime : String
  duration : Option Int
deriving DecidableEq, Repr

/-- Structure `Task` from `src/types.ts`.  `startDate`/`endDate` are optional strings in
the type declaration; the persistence layer backfills them with `""` and every
use site only tests their truthiness, so `""` models both "absent" and
"empty".  `logs` is backfilled to `[]` and `totalDuration` to `0` the same
way.  The declared-but-unused optional fields (`startTime`, `endTime`,
`estimatedHours`, `category`, `tags`, `priority`, `recurrence`, `projectId`)
are not consulted by any of the operations embedded here and are omitted;
record updates in the source copy them verbatim via object spread. -/
structure Task where
  id : String
  title : String
  description : String
  date : String
  isAdHoc : Bool
  order : Int
  completed : Bool
  completedAt : Option String
  deadline : Option String
  startDate : String
  endDate : String
  logs : List TaskLog
  totalDuration : Option Int
deriving DecidableEq, Repr

/-- Function `isTimeRangeOverlap` from `src/app/page.tsx` lines 41-59, verbatim: the
three-disjunct test over `getTime()` values of the candidate interval against
each existing log. -/
def pageIsTimeRangeOverlap (newStart newEnd : String)
    (existingLogs : List TaskLog) : Bool :=
  let newStartTime := parseTimeHM newStart
  let newEndTime := parseTimeHM newEnd
  existingLogs.any fun log =>
    let logStartTime := parseTimeHM log.startTime
    let logEndTime := parseTimeHM log.endTime
    (jsGe newStartTime logStartTime && jsLt newStartTime logEndTime) ||
    (jsGt newEndTime logStartTime && jsLe newEndTime logEndTime) ||
    (jsLe newStartTime logStartTime && jsGe newEndTime logEndTime)

/-- Function `shouldTaskAppearOnDate` from `src/app/page.tsx` lines 61-75: ad-hoc
tasks match their `date` exactly; otherwise truthy `startDate`/`endDate`
trigger a timestamp range test; otherwise fall back to exact `date` match. -/
def shouldTaskAppearOnDate (task : Task) (dateStr : String) : Bool :=
  if task.isAdHoc then
    task.date == dateStr
  else if task.startDate != "" && task.endDate != "" then
    let current := parseDate dateStr
    let start := parseDate task.startDate
    let stop := parseDate task.endDate
    jsGe current start && jsLe current stop
  else
    task.date == dateStr

/-- JS multiplication, propagating `NaN`. -/
def jsMul (a b : Option Int) : Option Int :=
  match a, b with
  | some x, some y => some (x * y)
  | _, _ => none

/-- JS `x || 0` on a number: `0` and `NaN` are falsy and become `0`. -/
def jsOrZero (x : Option Int) : Option Int :=
  match x with
  | some n => some n
  | none => some 0

/-- Stable insertion used to model `Array.prototype.sort` with the comparator
`(a, b) => (a.order || 0) - (b.order || 0)` (`order` is an `Int` here, so
`|| 0` only renames `0`): the element is placed after every earlier element
whose key is `≤` its own, which is exactly stable sorting by `order`. -/
def orderedInsert (x : Task) : List Task → List Task
  | [] => [x]
  | y :: ys => if x.order < y.order then x :: y :: ys else y :: orderedInsert x ys

/-- Stable sort by `order` (ECMAScript `sort` is stable). -/
def sortByOrder (l : List Task) : List Task :=
  l.foldl (fun acc x => orderedInsert x acc) []

/-- Function `getTasksByDate` from `src/lib/db.ts` lines 124-176.  The store is the
list of task records in primary-key (`id`) order.  Phase 1: the `by-date`
index cursor over `IDBKeyRange.only(date)` visits exactly the records whose
`date` equals the query (in id order), so it is a filter.  Phase 2: a full
primary-key cursor visits every record in id order and takes each task with
truthy `startDate`/`endDate` whose parsed query date lies in the parsed
`[startDate, endDate]` window and whose id was not collected in phase 1.
Phase 2 performs no `isAdHoc` check, although the source comments label
phase 1 "临时任务" (ad-hoc tasks) and phase 2 "周期性任务" (recurring
tasks).  The result is sorted stably by `order`. -/
def tasksByDatePhase1 (store : List Task) (date : String) : List Task :=
  store.filter fun t => t.date == date

/-- The second cursor pass of `getTasksByDate`: `seenIds` holds the ids
pushed by phase 1. -/
def tasksByDatePhase2 (store : List Task) (date : String) : List Task :=
  let seenIds := (tasksByDatePhase1 store date).map Task.id
  store.filter fun t =>
    t.startDate != "" && t.endDate != "" &&
    jsGe (parseDate date) (parseDate t.startDate) &&
    jsLe (parseDate date) (parseDate t.endDate) &&
    !(seenIds.contains t.id)

def getTasksByDate (store : List Task) (date : String) : List Task :=
  sortByOrder (tasksByDatePhase1 store date ++ tasksByDatePhase2 store date)

/-- The `otherLogs` filter inside TaskCard's `isTimeRangeOverlap`
(`src/components/TaskCard.tsx` lines 41-43): it keeps every log that differs
from the candidate in `date`, `startTime` or `endTime` — exclusion is by
matching field values, the log `id` is never consulted. -/
def cardOtherLogs (logs : List TaskLog) (start stop date : String) : List TaskLog :=
  logs.filter fun log =>
    log.date != date || log.startTime != start || log.endTime != stop

/-- The `validateTimeRange` prop constructed in `src/app/page.tsx` lines
146-148: a two-parameter closure that compares against the task's full
`logs` list. -/
def pageValidateTimeRange (task : Task) (startTime endTime : String) : Bool :=
  pageIsTimeRangeOverlap startTime endTime task.logs

/-- TaskCard's `isTimeRangeOverlap` (`src/components/TaskCard.tsx` lines
38-46): it computes `otherLogs` (see `cardOtherLogs`) and calls
`validateTimeRange(start, end, otherLogs)` — but the `validateTimeRange`
closure supplied by `page.tsx` takes only two parameters, so the third
argument is dropped at the call site and the comparison set actually used is
the full `task.logs`. -/
def cardIsTimeRangeOverlap (task : Task) (start stop date : String) : Bool :=
  let _otherLogs := cardOtherLogs task.logs start stop date
  pageValidateTimeRange task start stop

/-- Value of a nonempty all-digit character sequence, `none` otherwise. -/
def digitsVal (cs : List Char) : Option Nat :=
  if !cs.isEmpty && cs.all (fun c => c.isDigit) then
    some (cs.foldl (fun a c => 10 * a + digitVal c) 0)
  else none

/-- JS `Number(s)` on a string: the empty string converts to `0`, a decimal
numeral (optionally negated) to its value, anything else to `NaN`.  The
strings reaching this conversion are the `":"`-separated pieces of `HH:mm`
time-input values. -/
def jsNumber (s : String) : Option Int :=
  if s = "" then some 0
  else
    match s.toList with
    | [] => none
    | c :: cs =>
      if c == '-' then (digitsVal cs).map fun n => -(n : Int)
      else (digitsVal (c :: cs)).map fun n => (n : Int)

/-- Worker for `jsSplit`: split a character list at each separator. -/
def splitCharAux (sep : Char) : List Char → List Char → List String
  | [], acc => [String.mk acc.reverse]
  | c :: cs, acc =>
    if c == sep then String.mk acc.reverse :: splitCharAux sep cs []
    else splitCharAux sep cs (c :: acc)

/-- JS `s.split(sep)` for a single-character separator. -/
def jsSplit (s : String) (sep : Char) : List String :=
  splitCharAux sep s.toList []

/-- Array destructuring `const [a, b] = parts.map(Number)`: a position past
the end of the array yields `undefined`, and `Number(undefined)` is `NaN`. -/
def numAt (parts : List String) (i : Nat) : Option Int :=
  match parts.get? i with
  | some s => jsNumber s
  | none => none

/-- Function `calculateDuration` from `src/components/TaskCard.tsx` lines 91-99:
split both times on `":"`, convert the two leading pieces with `Number`,
and subtract minute totals. -/
def calculateDuration (start stop : String) : Option Int :=
  let sp := jsSplit start ':'
  let ep := jsSplit stop ':'
  let startMinutes := jsAdd (jsMul (numAt sp 0) (some 60)) (numAt sp 1)
  let endMinutes := jsAdd (jsMul (numAt ep 0) (some 60)) (numAt ep 1)
  jsSub endMinutes startMinutes

/-- The `newLog` form state fed to `handleAddLog`. -/
structure NewLog where
  date : String
  startTime : String
  endTime : String
  duration : Option Int
deriving DecidableEq, Repr

/-- Outcome of `handleAddLog`: the three early returns (missing field,
non-positive duration alert, overlap alert) leave the task untouched;
only `added` carries an updated task. -/
inductive AddLogResult where
  | emptyField
  | nonPositiveDuration
  | overlap
  | added (updated : Task)
deriving DecidableEq, Repr

/-- The reduce `updatedLogs.reduce((sum, log) => sum + log.duration, 0)`. -/
def sumDurations (logs : List TaskLog) : Option Int :=
  logs.foldl (fun sum log => jsAdd sum log.duration) (some 0)

/-- Function `handleAddLog` from `src/components/TaskCard.tsx` lines 101-139.
`newId` stands for the generated `Date.now().toString()`. -/
def handleAddLog (newId : String) (newLog : NewLog) (task : Task) : AddLogResult :=
  if newLog.startTime == "" || newLog.endTime == "" then .emptyField
  else
    let duration := calculateDuration newLog.startTime newLog.endTime
    if jsLe duration (some 0) then .nonPositiveDuration
    else if cardIsTimeRangeOverlap task newLog.startTime newLog.endTime newLog.date then
      .overlap
    else
      let log : TaskLog :=
        { id := newId, date := newLog.date, startTime := newLog.startTime,
          endTime := newLog.endTime, duration := duration }
      let updatedLogs := task.logs ++ [log]
      .added { task with logs := updatedLogs, totalDuration := sumDurations updatedLogs }

/-- The task state after `handleAddLog`: on any rejection the component
leaves `localTask` unchanged, on success it becomes the updated task. -/
def applyAddLog (newId : String) (newLog : NewLog) (task : Task) : Task :=
  match handleAddLog newId newLog task with
  | .added t' => t'
  | _ => task

/-- Function `handleDeleteLog` from `src/components/TaskCard.tsx` lines 141-153. -/
def handleDeleteLog (logId : String) (task : Task) : Task :=
  let updatedLogs := task.logs.filter fun log => log.id != logId
  { task with logs := updatedLogs, totalDuration := sumDurations updatedLogs }

/-- JS `Array.prototype.splice(i, 1)`: remove the element at index `i`
(no-op when `i` is out of range). -/
def spliceErase : Nat → List Task → List Task
  | _, [] => []
  | 0, _ :: ts => ts
  | n + 1, t :: ts => t :: spliceErase n ts

/-- JS `Array.prototype.splice(i, 0, x)`: insert `x` before index `i`,
appending when `i` is past the end. -/
def spliceInsert : Nat → Task → List Task → List Task
  | 0, x, l => x :: l
  | _ + 1, x, [] => [x]
  | n + 1, x, t :: ts => t :: spliceInsert n x ts

/-- The `orderCounter` reassignment map of `moveTask` (`src/app/page.tsx`
lines 434-443): incomplete tasks get `order = c, c+1, …` in list position
order, completed tasks are returned unchanged. -/
def assignOrders : Int → List Task → List Task
  | _, [] => []
  | c, t :: ts =>
    if t.completed then t :: assignOrders c ts
    else { t with order := c } :: assignOrders (c + 1) ts

/-- Function `moveTask` from `src/app/page.tsx` lines 417-450.  The
`db.batchUpdateTaskOrder(tasksToUpdate)` call is a fire-and-forget
persistence side effect; the function's value is the new task list handed to
`setTasks`. -/
def moveTask (dragIndex hoverIndex : Nat) (prevTasks : List Task) : List Task :=
  let incomplete := prevTasks.filter fun t => !t.completed
  -- `incomplete[dragIndex]?.id`; `!dragId` is true for both `undefined`
  -- (index out of range) and the empty string
  let dragId := ((incomplete.get? dragIndex).map Task.id).getD ""
  let hoverId := ((incomplete.get? hoverIndex).map Task.id).getD ""
  if dragId == "" || hoverId == "" then prevTasks
  else
    match prevTasks.findIdx? (fun t => t.id == dragId),
          prevTasks.findIdx? (fun t => t.id == hoverId) with
    | some dragActualIndex, some hoverActualIndex =>
      match prevTasks.get? dragActualIndex with
      | some draggedTask =>
        assignOrders 0
          (spliceInsert hoverActualIndex draggedTask (spliceErase dragActualIndex prevTasks))
      | none => prevTasks
    | _, _ => prevTasks

/-- One `WeeklyTaskRecord` row of the export (`src/app/page.tsx` lines
30-38); field names are the Chinese column headers. -/
structure WeeklyTaskRecord where
  taskName : String
  taskDescription : String
  startTimeCol : String
  endTimeCol : String
  durationStr : String
  totalStr : String
  status : String
deriving DecidableEq, Repr

/-- The template `Math.floor(d/60) ++ 小时 ++ d%60 ++ 分钟`: `Math.floor` is floor
division, JS `%` is the truncated remainder, and `NaN` prints as `"NaN"`. -/
def durationText (d : Option Int) : String :=
  match d with
  | some n => toString (Int.fdiv n 60) ++ "小时" ++ toString (Int.tmod n 60) ++ "分钟"
  | none => "NaN小时NaN分钟"

/-- Row pushed per log (`src/app/page.tsx` lines 473-482). -/
def logRow (task : Task) (log : TaskLog) : WeeklyTaskRecord :=
  { taskName := task.title
    taskDescription := task.description
    startTimeCol := log.startTime
    endTimeCol := log.endTime
    durationStr := durationText log.duration
    totalStr := durationText (jsOrZero task.totalDuration)
    status := if task.completed then "已完成" else "进行中" }

/-- Row pushed for a task without logs (`src/app/page.tsx` lines 485-494). -/
def noLogRow (task : Task) : WeeklyTaskRecord :=
  { taskName := task.title
    taskDescription := task.description
    startTimeCol := "无记录"
    endTimeCol := "无记录"
    durationStr := "0分钟"
    totalStr := durationText (jsOrZero task.totalDuration)
    status := if task.completed then "已完成" else "进行中" }

/-- The "no tasks" placeholder row (`src/app/page.tsx` lines 499-507). -/
def placeholderRow : WeeklyTaskRecord :=
  { taskName := "无任务记录", taskDescription := "", startTimeCol := ""
    endTimeCol := "", durationStr := "", totalStr := "", status := "" }

/-- The rows collected for one weekday (`src/app/page.tsx` lines 468-509):
per visible task one row per log (or a no-log row), and a single placeholder
row when the day ends up empty. -/
def dayRows (allTasks : List Task) (dateStr : String) : List WeeklyTaskRecord :=
  let dailyTasks := allTasks.filter fun t => shouldTaskAppearOnDate t dateStr
  let rows := dailyTasks.flatMap fun task =>
    if 0 < task.logs.length then task.logs.map (logRow task) else [noLogRow task]
  if rows.length == 0 then [placeholderRow] else rows

def dayNames : List String := ["周一", "周二", "周三", "周四", "周五", "周六", "周日"]

/-- The `weeklyData` table of `exportWeeklyReport`, one row list per date of
the Monday-started week. -/
def buildWeeklyData (allTasks : List Task) (weekDates : List String) :
    List (List WeeklyTaskRecord) :=
  weekDates.map (dayRows allTasks)

/-- Function `exportWeeklyReport` from `src/app/page.tsx` lines 452-545.  It builds
`weeklyData` and appends the seven day sheets, but line 533 then evaluates
`summaryDataForExport` — an identifier that is declared nowhere (only
`summaryData` is, on line 518).  At runtime this raises a `ReferenceError`
that the surrounding `try`/`catch` turns into an alert, so control never
reaches `XLSX.writeFile` on line 537 and no workbook is written. -/
def exportWeeklyReport (allTasks : List Task) (weekDates : List String) :
    Except String (List (String × List WeeklyTaskRecord)) :=
  let weeklyData := buildWeeklyData allTasks weekDates
  let _daySheets := dayNames.zip weeklyData
  Except.error "ReferenceError: summaryDataForExport is not defined"

/-! ### Concrete fixtures used by witnesses and counterexamples -/

/-- An ad-hoc task whose `startDate`/`endDate` span several days — the task
form produces exactly this shape when a deadline and estimated hours are set
on an ad-hoc task (`src/components/TaskForm.tsx` lines 33-53, 63-69). -/
def adHocRangeTask : Task :=
  { id := "1", title := "demo", description := "", date := "2024-01-01",
    isAdHoc := true, order := 0, completed := false, completedAt := none,
    deadline := none, startDate := "2024-01-01", endDate := "2024-01-05",
    logs := [], totalDuration := some 0 }

/-- The spec §8 scenario task A: non-ad-hoc, ranged 2024-01-01..2024-01-05. -/
def rangeTaskA : Task :=
  { id := "2", title := "A", description := "", date := "2024-01-01",
    isAdHoc := false, order := 0, completed := false, completedAt := none,
    deadline := none, startDate := "2024-01-01", endDate := "2024-01-05",
    logs := [], totalDuration := some 0 }

/-- An ad-hoc task whose anchor `date` is not a parsable date string. -/
def malformedDateTask : Task :=
  { adHocRangeTask with id := "4", date := "not-a-date" }

def logNineToTen : TaskLog :=
  { id := "7", date := "2024-05-01", startTime := "09:00", endTime := "10:00",
    duration := some 60 }

def logHalfPastNine : TaskLog :=
  { id := "8", date := "2024-05-01", startTime := "09:30", endTime := "10:30",
    duration := some 60 }

/-- A task holding one 09:00-10:00 log. -/
def taskWithMorningLog : Task :=
  { rangeTaskA with id := "3", logs := [logNineToTen], totalDuration := some 60 }

def newLogEleven : NewLog :=
  { date := "2024-05-01", startTime := "11:00", endTime := "12:00", duration := some 60 }

def newLogZeroLength : NewLog :=
  { date := "2024-05-01", startTime := "10:00", endTime := "10:00", duration := some 60 }

/-- Three tasks of one day: two incomplete ("a", "c") around a completed "b". -/
def demoDay : List Task :=
  [ { rangeTaskA with id := "a", order := 0 },
    { rangeTaskA with id := "b", completed := true, completedAt := some "2024-01-02T10:00:00.000Z" },
    { rangeTaskA with id := "c", order := 1 } ]

example : parseDate "2024-01-03" = some 20240103 := by decide
example : parseDate "2024-02-30" = none := by decide
example : parseDate "not-a-date" = none := by decide
example : parseTimeHM "09:30" = some 570 := by decide
example : pageIsTimeRangeOverlap "09:00" "10:00"
    [⟨"1", "2024-01-01", "09:30", "10:30", some 60⟩] = true := by decide
example : pageIsTimeRangeOverlap "10:00" "11:00"
    [⟨"1", "2024-01-01", "09:00", "10:00", some 60⟩] = false := by decide

/-! ### Helper lemmas -/

theorem jsLt_some_iff {a b : Option Int} :
    jsLt a b = true ↔ ∃ x y, a = some x ∧ b = some y ∧ x < y := by
  cases a <;> cases b <;> simp [jsLt]

theorem overlap_cond_iff_halfOpen (s1 e1 ls le : Int)
    (h1 : s1 < e1) (h2 : ls < le) :
    ((jsGe (some s1) (some ls) && jsLt (some s1) (some le)) ||
     (jsGt (some e1) (some ls) && jsLe (some e1) (some le)) ||
     (jsLe (some s1) (some ls) && jsGe (some e1) (some le))) = true ↔
    s1 < le ∧ ls < e1 := by
  simp only [jsGe, jsLt, jsGt, jsLe, Bool.or_eq_true, Bool.and_eq_true,
    decide_eq_true_eq]
  omega

/-- C2: for same-day `HH:mm` times whose candidate interval is positive
(`newStart < newEnd`) over logs whose intervals are positive,
`isTimeRangeOverlap` returns `true` iff some existing log half-open
intersects the candidate: `newStart < log.endTime ∧ log.startTime < newEnd`.
Touching endpoints therefore never count as overlapping. -/
theorem isTimeRangeOverlap_iff_halfOpen (newStart newEnd : String)
    (existingLogs : List TaskLog)
    (hnew : jsLt (parseTimeHM newStart) (parseTimeHM newEnd) = true)
    (hlogs : ∀ log ∈ existingLogs,
      jsLt (parseTimeHM log.startTime) (parseTimeHM log.endTime) = true) :
    pageIsTimeRangeOverlap newStart newEnd existingLogs = true ↔
      ∃ log ∈ existingLogs,
        jsLt (parseTimeHM newStart) (parseTimeHM log.endTime) = true ∧
        jsLt (parseTimeHM log.startTime) (parseTimeHM newEnd) = true := by
  obtain ⟨s1, e1, hs1, he1, h1⟩ := jsLt_some_iff.mp hnew
  simp only [pageIsTimeRangeOverlap, List.any_eq_true]
  constructor
  · rintro ⟨log, hmem, hcond⟩
    obtain ⟨ls, le, hls, hle, h2⟩ := jsLt_some_iff.mp (hlogs log hmem)
    rw [hs1, he1, hls, hle] at hcond
    have := (overlap_cond_iff_halfOpen s1 e1 ls le h1 h2).mp hcond
    exact ⟨log, hmem, by rw [hs1, hle]; simpa [jsLt] using this.1,
      by rw [hls, he1]; simpa [jsLt] using this.2⟩
  · rintro ⟨log, hmem, ha, hb⟩
    obtain ⟨ls, le, hls, hle, h2⟩ := jsLt_some_iff.mp (hlogs log hmem)
    rw [hs1, hle] at ha
    rw [hls, he1] at hb
    refine ⟨log, hmem, ?_⟩
    rw [hs1, he1, hls, hle]
    exact (overlap_cond_iff_halfOpen s1 e1 ls le h1 h2).mpr
      ⟨by simpa [jsLt] using ha, by simpa [jsLt] using hb⟩

/-- Witness for C2: 09:00-10:00 against an existing 09:30-10:30 log is an
overlap, by the half-open characterisation. -/
theorem isTimeRangeOverlap_iff_halfOpen_witness :
    pageIsTimeRangeOverlap "09:00" "10:00" [logHalfPastNine] = true :=
  (isTimeRangeOverlap_iff_halfOpen "09:00" "10:00" [logHalfPastNine]
      (by decide) (by decide)).mpr
    ⟨logHalfPastNine, by decide, by decide, by decide⟩

/-- C3: the three branches of `shouldTaskAppearOnDate`.  An ad-hoc task
occurs iff the query equals its `date`; a non-ad-hoc task with nonempty
`startDate`/`endDate` occurs (for parsable dates) iff the query lies in the
inclusive calendar range; otherwise occurrence is exact `date` match. -/
theorem shouldTaskAppearOnDate_branches (task : Task) (dateStr : String) :
    (task.isAdHoc = true →
      (shouldTaskAppearOnDate task dateStr = true ↔ task.date = dateStr)) ∧
    (task.isAdHoc = false → task.startDate ≠ "" → task.endDate ≠ "" →
      ∀ cd sd ed : Int, parseDate dateStr = some cd →
        parseDate task.startDate = some sd → parseDate task.endDate = some ed →
        (shouldTaskAppearOnDate task dateStr = true ↔ sd ≤ cd ∧ cd ≤ ed)) ∧
    (task.isAdHoc = false → (task.startDate = "" ∨ task.endDate = "") →
      (shouldTaskAppearOnDate task dateStr = true ↔ task.date = dateStr)) := by
  refine ⟨?_, ?_, ?_⟩
  · intro h
    simp [shouldTaskAppearOnDate, h]
  · intro h hs he cd sd ed hcd hsd hed
    simp [shouldTaskAppearOnDate, h, hs, he, hcd, hsd, hed, jsGe, jsLe]
  · intro h hse
    rcases hse with hs | he
    · simp [shouldTaskAppearOnDate, h, hs]
    · cases hstart : task.startDate == "" <;>
        simp [shouldTaskAppearOnDate, h, he, hstart]

/-- Witness for C3: the spec §8 scenario — task A (non-ad-hoc,
2024-01-01..2024-01-05) appears on 2024-01-03. -/
theorem shouldTaskAppearOnDate_branches_witness :
    shouldTaskAppearOnDate rangeTaskA "2024-01-03" = true :=
  ((shouldTaskAppearOnDate_branches rangeTaskA "2024-01-03").2.1
      rfl (by decide) (by decide) 20240103 20240101 20240105
      (by decide) (by decide) (by decide)).mpr (by decide)

/-- C8 counterexample: an ad-hoc task whose `date` field equals the malformed
query string "not-a-date" is reported as occurring — the exact-match branch
compares raw strings, so a malformed date string does not fail closed. -/
theorem shouldTaskAppearOnDate_malformed_counterexample :
    parseDate "not-a-date" = none ∧
    shouldTaskAppearOnDate malformedDateTask "not-a-date" = true := by decide

/-- C8 amended: `shouldTaskAppearOnDate` is a total function (it never
throws), and for a malformed (unparsable) date string the range branch fails
closed, while the ad-hoc and fallback branches return plain string equality
with `task.date` — so the result is false unless `task.date` happens to
equal the malformed string on a string-comparison branch. -/
theorem shouldTaskAppearOnDate_malformed (task : Task) (dateStr : String)
    (h : parseDate dateStr = none) :
    shouldTaskAppearOnDate task dateStr =
      (task.date == dateStr &&
        (task.isAdHoc || task.startDate == "" || task.endDate == "")) := by
  cases ha : task.isAdHoc
  · by_cases hs : task.startDate = ""
    · simp [shouldTaskAppearOnDate, ha, hs]
    · by_cases he : task.endDate = ""
      · simp [shouldTaskAppearOnDate, ha, hs, he]
      · simp [shouldTaskAppearOnDate, ha, hs, he, h, jsGe]
  · simp [shouldTaskAppearOnDate, ha]

/-- Witness for the amended C8: the range task fails closed on "garbage". -/
theorem shouldTaskAppearOnDate_malformed_witness :
    shouldTaskAppearOnDate rangeTaskA "garbage" =
      (rangeTaskA.date == "garbage" &&
        (rangeTaskA.isAdHoc || rangeTaskA.startDate == "" ||
          rangeTaskA.endDate == "")) :=
  shouldTaskAppearOnDate_malformed rangeTaskA "garbage" (by decide)

/-- C4 counterexample: the comparison set that TaskCard's
`isTimeRangeOverlap` computes (lines 41-43) removes the log `"7"` — whose
`date`/`startTime`/`endTime` coincide with the candidate but whose id
differs from any candidate identity — purely by field-value matching, and
against that computed set the coincidentally identical log cannot cause a
rejection. -/
theorem cardOtherLogs_counterexample :
    cardOtherLogs [logNineToTen] "09:00" "10:00" "2024-05-01" = [] ∧
    pageIsTimeRangeOverlap "09:00" "10:00"
      (cardOtherLogs [logNineToTen] "09:00" "10:00" "2024-05-01") = false := by
  decide

/-- C4 amended: exclusion from the comparison set is by matching field
values (`date`, `startTime`, `endTime`), not by id — a coincidentally
identical log is dropped from the computed `otherLogs`; however the
`validateTimeRange` closure supplied by `page.tsx` ignores that third
argument and compares against all of `task.logs`, so end-to-end the
identical log is still compared and does cause a rejection. -/
theorem cardOverlap_fieldFilter_and_effective (task : Task) (s e d : String)
    (L : TaskLog) (hmem : L ∈ task.logs) (hd : L.date = d)
    (hs : L.startTime = s) (he : L.endTime = e)
    (hps : (parseTimeHM s).isSome = true)
    (hpe : (parseTimeHM e).isSome = true) :
    L ∉ cardOtherLogs task.logs s e d ∧
    cardIsTimeRangeOverlap task s e d = true := by
  constructor
  · intro hcontra
    rw [cardOtherLogs, List.mem_filter] at hcontra
    simp [hd, hs, he] at hcontra
  · obtain ⟨ps, hps'⟩ := Option.isSome_iff_exists.mp hps
    obtain ⟨pe, hpe'⟩ := Option.isSome_iff_exists.mp hpe
    simp only [cardIsTimeRangeOverlap, pageValidateTimeRange,
      pageIsTimeRangeOverlap, List.any_eq_true]
    refine ⟨L, hmem, ?_⟩
    rw [hs, he, hps', hpe']
    simp [jsLe, jsGe]

/-- Witness for the amended C4 at the 09:00-10:00 fixture. -/
theorem cardOverlap_fieldFilter_witness :
    logNineToTen ∉ cardOtherLogs taskWithMorningLog.logs "09:00" "10:00" "2024-05-01" ∧
    cardIsTimeRangeOverlap taskWithMorningLog "09:00" "10:00" "2024-05-01" = true :=
  cardOverlap_fieldFilter_and_effective taskWithMorningLog "09:00" "10:00"
    "2024-05-01" logNineToTen (by decide) rfl rfl rfl (by decide) (by decide)

/-- C9: `exportWeeklyReport` never completes — line 533 evaluates the
undefined identifier `summaryDataForExport`, so even on an empty task store
the export fails with a ReferenceError and no workbook is written. -/
theorem exportWeeklyReport_fails :
    exportWeeklyReport []
      ["2025-10-06", "2025-10-07", "2025-10-08", "2025-10-09",
       "2025-10-10", "2025-10-11", "2025-10-12"] =
      Except.error "ReferenceError: summaryDataForExport is not defined" := rfl

/-- C1: `getTasksByDate` diverges from the resolver `shouldTaskAppearOnDate`
on ad-hoc tasks with a multi-day `startDate`/`endDate` window: for
2024-01-03 the store lookup returns the ad-hoc task anchored on 2024-01-01
(the range scan never checks `isAdHoc`), while the resolver says it does not
occur there. -/
theorem getTasksByDate_adHoc_divergence :
    adHocRangeTask.isAdHoc = true ∧
    adHocRangeTask.date ≠ "2024-01-03" ∧
    adHocRangeTask ∈ getTasksByDate [adHocRangeTask] "2024-01-03" ∧
    shouldTaskAppearOnDate adHocRangeTask "2024-01-03" = false := by decide

theorem orderedInsert_perm (x : Task) (l : List Task) :
    (orderedInsert x l).Perm (x :: l) := by
  induction l with
  | nil => exact List.Perm.refl _
  | cons y ys ih =>
    by_cases hxy : x.order < y.order
    · simp [orderedInsert, hxy]
    · simp only [orderedInsert, if_neg hxy]
      exact (ih.cons y).trans (List.Perm.swap x y ys)

theorem foldl_orderedInsert_perm (l : List Task) :
    ∀ acc, (l.foldl (fun a x => orderedInsert x a) acc).Perm (acc ++ l) := by
  induction l with
  | nil => intro acc; simp
  | cons x xs ih =>
    intro acc
    simp only [List.foldl_cons]
    exact (ih (orderedInsert x acc)).trans
      (((orderedInsert_perm x acc).append_right xs).trans List.perm_middle.symm)

theorem sortByOrder_perm (l : List Task) : (sortByOrder l).Perm l := by
  simpa using foldl_orderedInsert_perm l []

/-- C10: when the store's task ids are pairwise distinct (the IndexedDB
`keyPath: 'id'` invariant), `getTasksByDate` returns each task id at most
once: phase 2 skips every id already collected in phase 1, and the final
sort only permutes. -/
theorem getTasksByDate_nodup_ids (store : List Task) (d : String)
    (h : (store.map Task.id).Nodup) :
    ((getTasksByDate store d).map Task.id).Nodup := by
  unfold getTasksByDate
  rw [((sortByOrder_perm _).map Task.id).nodup_iff]
  rw [List.map_append, List.nodup_append]
  refine ⟨List.Nodup.sublist (List.Sublist.map _ (List.filter_sublist _)) h,
    List.Nodup.sublist (List.Sublist.map _ (List.filter_sublist _)) h, ?_⟩
  intro a ha1 ha2
  simp only [tasksByDatePhase2, List.mem_map, List.mem_filter] at ha2
  obtain ⟨t2, ⟨ht2, hp2⟩, hid2⟩ := ha2
  simp only [Bool.and_eq_true, Bool.not_eq_true'] at hp2
  have hcontains : (List.map Task.id (tasksByDatePhase1 store d)).elem t2.id = false :=
    hp2.2
  replace ha1 := List.elem_iff.mpr ha1
  subst hid2
  rw [ha1] at hcontains
  cases hcontains

/-- Witness for C10 at a concrete two-task store. -/
theorem getTasksByDate_nodup_ids_witness :
    ((getTasksByDate [adHocRangeTask, rangeTaskA] "2024-01-03").map Task.id).Nodup :=
  getTasksByDate_nodup_ids [adHocRangeTask, rangeTaskA] "2024-01-03" (by decide)

theorem isDigit_beq_false {c d : Char} (hc : c.isDigit = true)
    (hd : d.isDigit = false) : (c == d) = false := by
  rw [beq_eq_false_iff_ne]
  rintro rfl
  rw [hc] at hd
  exact Bool.noConfusion hd

theorem parseTimeHM_toList {s : String} {x : Int} (h : parseTimeHM s = some x) :
    ∃ c1 c2 c3 c4 : Char, s.toList = [c1, c2, ':', c3, c4] ∧
      c1.isDigit = true ∧ c2.isDigit = true ∧ c3.isDigit = true ∧
      c4.isDigit = true ∧
      x = Int.ofNat ((10 * digitVal c1 + digitVal c2) * 60 +
        (10 * digitVal c3 + digitVal c4)) := by
  unfold parseTimeHM at h
  split at h
  · rename_i c1 c2 c3 c4 heq
    split at h
    · rename_i hdig
      simp only [] at h
      split at h
      · simp only [Bool.and_eq_true] at hdig
        refine ⟨c1, c2, c3, c4, heq, hdig.1.1.1, hdig.1.1.2, hdig.1.2, hdig.2, ?_⟩
        exact (Option.some.inj h).symm
      · exact Option.noConfusion h
    · exact Option.noConfusion h
  · exact Option.noConfusion h

theorem jsSplit_hm {c1 c2 c3 c4 : Char} {s : String}
    (hd1 : c1.isDigit = true) (hd2 : c2.isDigit = true)
    (hd3 : c3.isDigit = true) (hd4 : c4.isDigit = true)
    (hs : s.toList = [c1, c2, ':', c3, c4]) :
    jsSplit s ':' = [String.mk [c1, c2], String.mk [c3, c4]] := by
  have n1 := isDigit_beq_false hd1 (show Char.isDigit ':' = false by decide)
  have n2 := isDigit_beq_false hd2 (show Char.isDigit ':' = false by decide)
  have n3 := isDigit_beq_false hd3 (show Char.isDigit ':' = false by decide)
  have n4 := isDigit_beq_false hd4 (show Char.isDigit ':' = false by decide)
  unfold jsSplit
  rw [hs]
  simp [splitCharAux, n1, n2, n3, n4]

theorem jsNumber_two_digits {c1 c2 : Char} (hd1 : c1.isDigit = true)
    (hd2 : c2.isDigit = true) :
    jsNumber (String.mk [c1, c2]) =
      some (((10 * digitVal c1 + digitVal c2 : Nat) : Int)) := by
  have hne : String.mk [c1, c2] ≠ "" := by
    intro hcontra
    exact List.noConfusion (congrArg String.data hcontra)
  have hminus : (c1 == '-') = false :=
    isDigit_beq_false hd1 (show Char.isDigit '-' = false by decide)
  unfold jsNumber
  rw [if_neg hne]
  simp [String.toList, hminus, digitsVal, hd1, hd2]

theorem calculateDuration_of_parseTimeHM (a b : String) (x y : Int)
    (ha : parseTimeHM a = some x) (hb : parseTimeHM b = some y) :
    calculateDuration a b = some (y - x) := by
  obtain ⟨a1, a2, a3, a4, haeq, hda1, hda2, hda3, hda4, hx⟩ := parseTimeHM_toList ha
  obtain ⟨b1, b2, b3, b4, hbeq, hdb1, hdb2, hdb3, hdb4, hy⟩ := parseTimeHM_toList hb
  unfold calculateDuration
  rw [jsSplit_hm hda1 hda2 hda3 hda4 haeq, jsSplit_hm hdb1 hdb2 hdb3 hdb4 hbeq]
  simp only [numAt, List.get?, jsNumber_two_digits hda1 hda2,
    jsNumber_two_digits hda3 hda4, jsNumber_two_digits hdb1 hdb2,
    jsNumber_two_digits hdb3 hdb4, jsAdd, jsMul, jsSub, hx, hy,
    Option.some.injEq, Int.ofNat_eq_coe]
  push_cast
  ring

/-- C5: when the proposed log's `endTime` is less than or equal to its
`startTime` (well-formed `HH:mm` times, non-positive duration),
`handleAddLog` rejects with the distinct non-positive-duration failure —
for every state of the existing logs, before any overlap comparison — and
the task (its `logs` and `totalDuration` included) is left unchanged. -/
theorem handleAddLog_rejects_nonPositive (newId : String) (newLog : NewLog)
    (task : Task) (s e : Int)
    (hs : parseTimeHM newLog.startTime = some s)
    (he : parseTimeHM newLog.endTime = some e)
    (hle : e ≤ s) :
    handleAddLog newId newLog task = .nonPositiveDuration ∧
    applyAddLog newId newLog task = task := by
  have hnes : (newLog.startTime == "") = false := by
    rw [beq_eq_false_iff_ne]
    intro hcontra
    rw [hcontra, show parseTimeHM "" = none from by decide] at hs
    exact Option.noConfusion hs
  have hnee : (newLog.endTime == "") = false := by
    rw [beq_eq_false_iff_ne]
    intro hcontra
    rw [hcontra, show parseTimeHM "" = none from by decide] at he
    exact Option.noConfusion he
  have hdur := calculateDuration_of_parseTimeHM _ _ _ _ hs he
  have hjs : jsLe (calculateDuration newLog.startTime newLog.endTime)
      (some 0) = true := by
    rw [hdur]
    simp only [jsLe, decide_eq_true_eq]
    omega
  have h1 : handleAddLog newId newLog task = .nonPositiveDuration := by
    simp [handleAddLog, hnes, hnee, hjs]
  exact ⟨h1, by simp [applyAddLog, h1]⟩

/-- Witness for C5: a 10:00-10:00 log is rejected as non-positive even
against a task whose log set would also overlap it. -/
theorem handleAddLog_rejects_nonPositive_witness :
    handleAddLog "99" newLogZeroLength taskWithMorningLog = .nonPositiveDuration ∧
    applyAddLog "99" newLogZeroLength taskWithMorningLog = taskWithMorningLog :=
  handleAddLog_rejects_nonPositive "99" newLogZeroLength taskWithMorningLog
    600 600 (by decide) (by decide) (by decide)

/-- C7: after a successful `handleAddLog` and after every `handleDeleteLog`,
`totalDuration` equals the fold of the remaining logs' durations — both
handlers recompute it from scratch with the same reduce. -/
theorem totalDuration_eq_sumDurations :
    (∀ (newId : String) (newLog : NewLog) (task updated : Task),
      handleAddLog newId newLog task = .added updated →
      updated.totalDuration = sumDurations updated.logs) ∧
    (∀ (logId : String) (task : Task),
      (handleDeleteLog logId task).totalDuration =
        sumDurations (handleDeleteLog logId task).logs) := by
  constructor
  · intro newId newLog task updated h
    simp only [handleAddLog] at h
    split at h
    · exact AddLogResult.noConfusion h
    · split at h
      · exact AddLogResult.noConfusion h
      · split at h
        · exact AddLogResult.noConfusion h
        · injection h with h2
          subst h2
          rfl
  · intro logId task
    rfl

/-- Witness for C7: the invariant at a concrete successful log addition. -/
theorem totalDuration_eq_sumDurations_witness :
    (applyAddLog "99" newLogEleven taskWithMorningLog).totalDuration =
      sumDurations (applyAddLog "99" newLogEleven taskWithMorningLog).logs :=
  totalDuration_eq_sumDurations.1 "99" newLogEleven taskWithMorningLog
    (applyAddLog "99" newLogEleven taskWithMorningLog) (by decide)

theorem assignOrders_filter_completed (c : Int) (l : List Task) :
    (assignOrders c l).filter (fun t => t.completed) =
      l.filter (fun t => t.completed) := by
  induction l generalizing c with
  | nil => rfl
  | cons t ts ih =>
    cases htc : t.completed
    · simp [assignOrders, htc, ih]
    · simp [assignOrders, htc, ih]

theorem assignOrders_incomplete_orders (c : Int) (l : List Task) :
    ((assignOrders c l).filter (fun t => !t.completed)).map Task.order =
      (List.range (l.countP (fun t => !t.completed))).map
        (fun k : Nat => c + (k : Int)) := by
  induction l generalizing c with
  | nil => simp [assignOrders]
  | cons t ts ih =>
    cases htc : t.completed
    · have h1 : assignOrders c (t :: ts) =
          { t with order := c } :: assignOrders (c + 1) ts := by
        simp [assignOrders, htc]
      rw [h1, List.filter_cons_of_pos (by simp [htc]), List.map_cons, ih,
        List.countP_cons_of_pos _ _ (by simp [htc]), List.range_succ_eq_map,
        List.map_cons, List.map_map]
      refine congrArg₂ List.cons (by simp) (List.map_congr_left ?_)
      intro a _
      simp only [Function.comp_apply, Nat.succ_eq_add_one]
      push_cast
      ring
    · have h1 : assignOrders c (t :: ts) = t :: assignOrders c ts := by
        simp [assignOrders, htc]
      rw [h1, List.filter_cons_of_neg (by simp [htc]), ih,
        List.countP_cons_of_neg _ _ (by simp [htc])]

theorem spliceErase_filter_false (p : Task → Bool) (x : Task)
    (hpx : p x = false) :
    ∀ (l : List Task) (i : Nat), l.get? i = some x →
      (spliceErase i l).filter p = l.filter p := by
  intro l
  induction l with
  | nil => intro i h; simp at h
  | cons y ys ih =>
    intro i h
    cases i with
    | zero =>
      simp only [List.get?] at h
      injection h with h'
      subst h'
      simp [spliceErase, hpx]
    | succ n =>
      simp only [List.get?] at h
      cases hpy : p y <;> simp [spliceErase, List.filter_cons, hpy, ih n h]

theorem spliceInsert_filter_false (p : Task → Bool) (x : Task)
    (hpx : p x = false) :
    ∀ (k : Nat) (l : List Task), (spliceInsert k x l).filter p = l.filter p := by
  intro k
  induction k with
  | zero => intro l; simp [spliceInsert, hpx]
  | succ n ih =>
    intro l
    cases l with
    | nil => simp [spliceInsert, hpx]
    | cons y ys => cases hpy : p y <;> simp [spliceInsert, hpy, ih]

theorem spliceErase_perm :
    ∀ (l : List Task) (i : Nat) (x : Task), l.get? i = some x →
      l.Perm (x :: spliceErase i l) := by
  intro l
  induction l with
  | nil => intro i x h; simp at h
  | cons y ys ih =>
    intro i x h
    cases i with
    | zero =>
      simp only [List.get?] at h
      injection h with h'
      subst h'
      exact List.Perm.refl _
    | succ n =>
      simp only [List.get?] at h
      exact ((ih n x h).cons y).trans (List.Perm.swap x y _)

theorem spliceInsert_perm (x : Task) :
    ∀ (k : Nat) (l : List Task), (spliceInsert k x l).Perm (x :: l) := by
  intro k
  induction k with
  | zero => intro l; exact List.Perm.refl _
  | succ n ih =>
    intro l
    cases l with
    | nil => exact List.Perm.refl _
    | cons y ys => exact ((ih ys).cons y).trans (List.Perm.swap x y ys)

/-- C6: for in-range drag/hover indices into the incomplete subsequence (and
well-formed distinct nonempty ids, the store invariant), `moveTask` leaves
the completed tasks — records and relative order — untouched, and reassigns
the incomplete tasks the contiguous orders `0..n-1` by their new
positions. -/
theorem moveTask_spec (prevTasks : List Task) (dragIndex hoverIndex : Nat)
    (hids : (prevTasks.map Task.id).Nodup)
    (hne : ∀ t ∈ prevTasks, t.id ≠ "")
    (hd : dragIndex < (prevTasks.filter fun t => !t.completed).length)
    (hh : hoverIndex < (prevTasks.filter fun t => !t.completed).length) :
    (moveTask dragIndex hoverIndex prevTasks).filter (fun t => t.completed) =
      prevTasks.filter (fun t => t.completed) ∧
    ((moveTask dragIndex hoverIndex prevTasks).filter
        (fun t => !t.completed)).map Task.order =
      (List.range (prevTasks.filter fun t => !t.completed).length).map
        (fun k : Nat => (k : Int)) := by
  have hdget := List.get?_eq_get hd
  have hhget := List.get?_eq_get hh
  set dt := (prevTasks.filter fun t => !t.completed).get ⟨dragIndex, hd⟩ with hdtdef
  set hv := (prevTasks.filter fun t => !t.completed).get ⟨hoverIndex, hh⟩ with hhvdef
  have hdmem' : dt ∈ prevTasks.filter fun t => !t.completed := List.get_mem _ _ _
  have hhmem' : hv ∈ prevTasks.filter fun t => !t.completed := List.get_mem _ _ _
  have hdmem : dt ∈ prevTasks := (List.mem_filter.mp hdmem').1
  have hhmem : hv ∈ prevTasks := (List.mem_filter.mp hhmem').1
  have hdinc : dt.completed = false :=
    (Bool.not_eq_true' _) ▸ (List.mem_filter.mp hdmem').2
  have hdid : dt.id ≠ "" := hne dt hdmem
  have hvid : hv.id ≠ "" := hne hv hhmem
  have hfd : ∃ di, prevTasks.findIdx? (fun t => t.id == dt.id) = some di := by
    cases hcase : prevTasks.findIdx? (fun t => t.id == dt.id) with
    | some di => exact ⟨di, rfl⟩
    | none =>
      rw [List.findIdx?_eq_none_iff] at hcase
      have := hcase dt hdmem
      simp at this
  have hfh : ∃ hi, prevTasks.findIdx? (fun t => t.id == hv.id) = some hi := by
    cases hcase : prevTasks.findIdx? (fun t => t.id == hv.id) with
    | some hi => exact ⟨hi, rfl⟩
    | none =>
      rw [List.findIdx?_eq_none_iff] at hcase
      have := hcase hv hhmem
      simp at this
  obtain ⟨di, hdi⟩ := hfd
  obtain ⟨hi, hhi⟩ := hfh
  obtain ⟨hdilt, hdip, -⟩ := List.findIdx?_eq_some_iff_getElem.mp hdi
  have hdeq : prevTasks[di] = dt :=
    List.inj_on_of_nodup_map hids (List.getElem_mem hdilt) hdmem
      (beq_iff_eq.mp hdip)
  have hgetdi : prevTasks.get? di = some dt := by
    rw [List.get?_eq_getElem?, List.getElem?_eq_getElem hdilt, hdeq]
  have hbd : (dt.id == "") = false := beq_eq_false_iff_ne.mpr hdid
  have hbh : (hv.id == "") = false := beq_eq_false_iff_ne.mpr hvid
  have hmove : moveTask dragIndex hoverIndex prevTasks =
      assignOrders 0 (spliceInsert hi dt (spliceErase di prevTasks)) := by
    simp only [moveTask, hdget, hhget, Option.map_some', Option.getD_some,
      hbd, hbh, Bool.or_self, Bool.false_eq_true, if_false, hdi, hhi, hgetdi]
  refine ⟨?_, ?_⟩
  · rw [hmove, assignOrders_filter_completed,
      spliceInsert_filter_false _ dt hdinc,
      spliceErase_filter_false _ dt hdinc prevTasks di hgetdi]
  · rw [hmove, assignOrders_incomplete_orders]
    have hperm : (spliceInsert hi dt (spliceErase di prevTasks)).Perm prevTasks :=
      (spliceInsert_perm dt hi _).trans
        (spliceErase_perm prevTasks di dt hgetdi).symm
    rw [hperm.countP_eq, List.countP_eq_length_filter]
    simp

/-- Witness for C6: moving incomplete task "a" to position 1 across the
completed task "b" in the three-task fixture. -/
theorem moveTask_spec_witness :
    (moveTask 0 1 demoDay).filter (fun t => t.completed) =
      demoDay.filter (fun t => t.completed) ∧
    ((moveTask 0 1 demoDay).filter (fun t => !t.completed)).map Task.order =
      (List.range (demoDay.filter fun t => !t.completed).length).map
        (fun k : Nat => (k : Int)) :=
  moveTask_spec demoDay 0 1 (by decide) (by decide) (by decide) (by decide)

end Schedify
